import Mathlib

/-!
Verification of the sliding-window rate limiter in
`src/middleware/rateLimiter.js` (SoulHeads backend).

The middleware keeps an in-memory `Map` from a string key to a bucket
`{ requests: [timestamps], firstRequest }`.  On each non-exempt request it
prunes timestamps older than `now - windowMs`, sets the rate-limit headers,
rejects with HTTP 429 when the pruned count has reached `maxRequests`, and
otherwise appends `now` and forwards the request.  A `setInterval` sweep
deletes buckets whose `firstRequest` is older than one hour.

Timestamps are JavaScript `Date.now()` millisecond values, modelled as `Int`
(JS subtraction can go negative, e.g. `now - windowMs`).
-/

namespace RateLimiter

/-- One bucket of the in-memory store: the JS object
`{ requests: [...], firstRequest: now }` created lazily per key. -/
structure Entry where
  requests : List Int
  firstRequest : Int
deriving DecidableEq, Repr

/-- The in-memory request store (`const requestStore = new Map()`),
modelled as a partial map from key to bucket. -/
abbrev Store := String → Option Entry

/-- The empty store. -/
def Store.empty : Store := fun _ => none

/-- `requestStore.set(key, entry)` — insert or overwrite one bucket. -/
def Store.setKey (s : Store) (k : String) (e : Entry) : Store :=
  fun q => if q = k then some e else s q

/-- The configuration captured by the `createRateLimiter(maxRequests,
windowMs, options)` closure.  The `handler` and `keyGenerator` options are
left at their defaults (`null`): `handler` only replaces the 429 response
body and `keyGenerator` only changes how the key string is derived, and the
bucket key is taken here directly as an input string. -/
structure Config where
  maxRequests : Nat
  windowMs : Nat
  skipSuccessfulRequests : Bool
  skipMethods : List String
deriving DecidableEq, Repr

/-- What one middleware invocation did to the HTTP response: which headers
were set, whether a 429 status with a JSON body was sent, whether `next()`
was called, whether the finish callback was registered, and whether an
internal error was logged. -/
structure Response where
  limitHeader : Option Nat := none
  remainingHeader : Option Int := none
  resetHeader : Option Int := none
  retryAfterHeader : Option Nat := none
  status : Option Nat := none
  bodyRetryAfter : Option Nat := none
  calledNext : Bool := false
  registeredFinish : Bool := false
  logged : Bool := false
deriving DecidableEq, Repr

/-- `Math.ceil(a / b)` for integer `a` and positive integer `b`. -/
def ceilDiv (a b : Int) : Int := Int.ediv (a + b - 1) b

/-- The accounting body of the middleware (lines 48 to 110 of
`rateLimiter.js`), after the exempt-method early return: prune the bucket,
set `X-RateLimit-Limit` and `X-RateLimit-Remaining`, set `X-RateLimit-Reset`
when `entry.requests[0]` is truthy, then either reject with 429
(`Retry-After` header plus `{message, retryAfter}` body, both
`Math.ceil(windowMs / 1000)`) or append `now` and call `next()`. -/
def checkAccounting (cfg : Config) (key : String) (now : Int)
    (store : Store) : Store × Response :=
  let entry := (store key).getD { requests := [], firstRequest := now }
  let windowStart : Int := now - (cfg.windowMs : Int)
  let pruned := entry.requests.filter (fun t => windowStart < t)
  let remaining : Int := max 0 ((cfg.maxRequests : Int) - (pruned.length : Int))
  let resetH : Option Int :=
    match pruned.head? with
    | some t => if t = 0 then none else some (ceilDiv (t + (cfg.windowMs : Int)) 1000)
    | none => none
  if cfg.maxRequests ≤ pruned.length then
    let retryAfter := (cfg.windowMs + 999) / 1000
    (store.setKey key { entry with requests := pruned },
      { limitHeader := some cfg.maxRequests
        remainingHeader := some remaining
        resetHeader := resetH
        retryAfterHeader := some retryAfter
        status := some 429
        bodyRetryAfter := some retryAfter })
  else
    (store.setKey key { entry with requests := pruned ++ [now] },
      { limitHeader := some cfg.maxRequests
        remainingHeader := some remaining
        resetHeader := resetH
        calledNext := true
        registeredFinish := cfg.skipSuccessfulRequests })

/-- One invocation of the middleware returned by `createRateLimiter`:
methods in `skipMethods` bypass all accounting (`return next()`), every
other request runs the accounting body. -/
def check (cfg : Config) (method : String) (key : String) (now : Int)
    (store : Store) : Store × Response :=
  if method ∈ cfg.skipMethods then (store, { calledNext := true })
  else checkAccounting cfg key now store

/-- The `res.on("finish")` callback registered on the accept path when
`skipSuccessfulRequests` is set: when the response status is below 400,
remove the first occurrence of the just-added timestamp
(`indexOf` + `splice`). -/
def finishErase (key : String) (now : Int) (store : Store) : Store :=
  match store key with
  | some e => store.setKey key { e with requests := e.requests.erase now }
  | none => store

/-- One complete request as seen by the limiter: the middleware invocation
followed by the response finishing with HTTP status `sc` downstream, which
fires the registered finish callback when there is one. -/
def requestStep (cfg : Config) (method : String) (key : String) (now : Int)
    (sc : Nat) (store : Store) : Store × Response :=
  let p := check cfg method key now store
  if p.2.registeredFinish ∧ sc < 400 then (finishErase key now p.1, p.2)
  else p

/-- The try/catch wrapper around the whole middleware body (lines 35 and
111 to 115): a thrown error is caught, logged via `logger.error`, and the
request is allowed through (`next()`).  `fault = some msg` models an error
thrown anywhere inside the try block. -/
def checkGuarded (fault : Option String) (cfg : Config) (method : String)
    (key : String) (now : Int) (store : Store) : Store × Response :=
  match fault with
  | some _ => (store, { calledNext := true, logged := true })
  | none => check cfg method key now store

/-- The `setInterval` period of the cleanup sweep: every 5 minutes. -/
def cleanupIntervalMs : Nat := 5 * 60 * 1000

/-- The staleness threshold of the cleanup sweep: one hour. -/
def staleAfterMs : Nat := 60 * 60 * 1000

/-- One run of the periodic cleanup sweep (lines 7 to 16): delete every
bucket whose `firstRequest` is before `now - staleAfterMs`. -/
def cleanup (now : Int) (s : Store) : Store :=
  fun k =>
    match s k with
    | some e => if e.firstRequest < now - (staleAfterMs : Int) then none else some e
    | none => none

/-- A whole sequence of requests for one key, all finishing downstream with
HTTP status `sc`; returns the final store and the list of responses. -/
def runSeq (cfg : Config) (method : String) (key : String) (sc : Nat)
    (store : Store) : List Int → Store × List Response
  | [] => (store, [])
  | t :: rest =>
    let p := requestStep cfg method key t sc store
    let q := runSeq cfg method key sc p.1 rest
    (q.1, p.2 :: q.2)

/-- Observer: the bucket the middleware works on — the stored entry, or the
lazily created `{ requests: [], firstRequest: now }`. -/
def entryOf (store : Store) (key : String) (now : Int) : Entry :=
  (store key).getD { requests := [], firstRequest := now }

/-- Observer: the timestamps of the bucket of `key` that survive pruning at
time `now` (the sliding-window count the middleware decides on). -/
def prunedRequests (cfg : Config) (now : Int) (store : Store)
    (key : String) : List Int :=
  (entryOf store key now).requests.filter (fun t => now - (cfg.windowMs : Int) < t)

/-- Observer: the value of the `X-RateLimit-Reset` header as a function of
the pruned bucket — set only when `entry.requests[0]` is truthy, i.e. the
bucket is non-empty and its oldest timestamp is not the falsy `0`. -/
def resetHeaderOf (pruned : List Int) (w : Int) : Option Int :=
  match pruned.head? with
  | some t => if t = 0 then none else some (ceilDiv (t + w) 1000)
  | none => none

/-- Observer: the sliding-window count for a key. -/
def countInWindow (cfg : Config) (now : Int) (store : Store)
    (key : String) : Nat :=
  (prunedRequests cfg now store key).length

/-- Modelled from the spec (section 4.1 step 4), for comparison with the
code: the retry-after seconds prescribed there are derived from the oldest
surviving timestamp plus window length minus now, falling back to the full
window length when no timestamps survive. -/
def specRetryAfterSeconds (cfg : Config) (now : Int)
    (pruned : List Int) : Int :=
  match pruned.head? with
  | some t => ceilDiv (t + (cfg.windowMs : Int) - now) 1000
  | none => ceilDiv (cfg.windowMs : Int) 1000

/-- Concrete fixture: limit 2 per 1000 ms, defaults otherwise
(as in `rateLimiter.standard`). -/
def cfgA : Config :=
  { maxRequests := 2, windowMs := 1000, skipSuccessfulRequests := false,
    skipMethods := ["OPTIONS"] }

/-- Concrete fixture: limit 1 per 2000 ms. -/
def cfgB : Config :=
  { maxRequests := 1, windowMs := 2000, skipSuccessfulRequests := false,
    skipMethods := ["OPTIONS"] }

/-- Concrete fixture: limit 2 per 1000 ms with skip-successful mode
(as in `rateLimiter.search`). -/
def cfgC : Config :=
  { maxRequests := 2, windowMs := 1000, skipSuccessfulRequests := true,
    skipMethods := ["OPTIONS"] }

/-- Concrete fixture: a store holding one bucket with one timestamp. -/
def storeB : Store :=
  Store.empty.setKey "k" { requests := [1000], firstRequest := 1000 }

theorem Store.setKey_self (s : Store) (k : String) (e : Entry) :
    s.setKey k e k = some e := by
  simp [Store.setKey]

theorem Store.setKey_ne (s : Store) (k q : String) (e : Entry) (h : q ≠ k) :
    s.setKey k e q = s q := by
  simp [Store.setKey, h]

/-- Characterization of one non-exempt middleware invocation in terms of the
observers: the store update and the full response, in each of the reject and
accept branches. -/
theorem check_nonexempt (cfg : Config) (method key : String) (now : Int)
    (store : Store) (hmethod : method ∉ cfg.skipMethods) :
    check cfg method key now store =
      if cfg.maxRequests ≤ countInWindow cfg now store key then
        (store.setKey key
           { requests := prunedRequests cfg now store key,
             firstRequest := (entryOf store key now).firstRequest },
         { limitHeader := some cfg.maxRequests,
           remainingHeader := some (max 0 ((cfg.maxRequests : Int) -
             (countInWindow cfg now store key : Int))),
           resetHeader := resetHeaderOf (prunedRequests cfg now store key)
             (cfg.windowMs : Int),
           retryAfterHeader := some ((cfg.windowMs + 999) / 1000),
           status := some 429,
           bodyRetryAfter := some ((cfg.windowMs + 999) / 1000) })
      else
        (store.setKey key
           { requests := prunedRequests cfg now store key ++ [now],
             firstRequest := (entryOf store key now).firstRequest },
         { limitHeader := some cfg.maxRequests,
           remainingHeader := some (max 0 ((cfg.maxRequests : Int) -
             (countInWindow cfg now store key : Int))),
           resetHeader := resetHeaderOf (prunedRequests cfg now store key)
             (cfg.windowMs : Int),
           calledNext := true,
           registeredFinish := cfg.skipSuccessfulRequests }) := by
  simp only [check, checkAccounting, hmethod, if_false,
    countInWindow, prunedRequests, entryOf, resetHeaderOf]

theorem check_fst_firstRequest (cfg : Config) (method key q : String)
    (now : Int) (store : Store) (e : Entry) (hq : store q = some e) :
    Option.map Entry.firstRequest ((check cfg method key now store).1 q) =
      some e.firstRequest := by
  by_cases hm : method ∈ cfg.skipMethods
  · simp [check, hm, hq]
  · rw [check_nonexempt cfg method key now store hm]
    by_cases hk : q = key
    · subst hk
      split <;> simp [Store.setKey_self, entryOf, hq]
    · split <;> simp [Store.setKey_ne _ _ _ _ hk, hq]

theorem finishErase_fst (key : String) (now : Int) (s : Store) (q : String)
    (e : Entry) (hq : s q = some e) :
    Option.map Entry.firstRequest (finishErase key now s q) =
      some e.firstRequest := by
  unfold finishErase
  cases hk : s key with
  | none => simp [hq]
  | some e2 =>
    by_cases hqk : q = key
    · subst hqk
      rw [hq] at hk
      cases hk
      simp [Store.setKey_self]
    · simp [Store.setKey_ne _ _ _ _ hqk, hq]

/-- C9: the `firstRequest` field of a bucket is set once at creation and
never updated by later requests — one full request step preserves the
`firstRequest` of every stored bucket — and a sweep at time `tnow` deletes
the bucket of a key exactly when its first-ever request is more than one
hour old, regardless of any recent activity recorded in `requests`. -/
theorem c9_first_request_write_once (cfg : Config) (method key q : String)
    (now tnow : Int) (sc : Nat) (store : Store) (e : Entry)
    (hq : store q = some e) :
    Option.map Entry.firstRequest ((requestStep cfg method key now sc store).1 q) =
        some e.firstRequest ∧
    (cleanup tnow store q = none ↔
        e.firstRequest < tnow - (staleAfterMs : Int)) := by
  constructor
  · have h1 := check_fst_firstRequest cfg method key q now store e hq
    simp only [requestStep]
    split
    · rcases Option.map_eq_some'.mp h1 with ⟨e2, he2, hfr⟩
      simpa [hfr] using finishErase_fst key now _ q e2 he2
    · exact h1
  · simp only [cleanup, hq]
    split_ifs with h <;> simp [h]

/-- Witness for C9 at a concrete input. -/
theorem c9_witness :
    storeB "k" = some { requests := [1000], firstRequest := 1000 } ∧
    (Option.map Entry.firstRequest
        ((requestStep cfgA "GET" "k" 1200 200 storeB).1 "k") = some 1000 ∧
      (cleanup 4000000 storeB "k" = none ↔
        (1000 : Int) < 4000000 - (staleAfterMs : Int))) :=
  ⟨by decide,
   c9_first_request_write_once cfgA "GET" "k" "k" 1200 4000000 200 storeB
     { requests := [1000], firstRequest := 1000 } (by decide)⟩

/-- C5: any internal error thrown during the accounting body is caught by
the try/catch wrapper: the failure is logged, `next()` is called
(fail-open), and no 429 or error is ever surfaced to the caller. -/
theorem c5_fail_open (msg : String) (cfg : Config) (method key : String)
    (now : Int) (store : Store) :
    (checkGuarded (some msg) cfg method key now store).2.calledNext = true ∧
    (checkGuarded (some msg) cfg method key now store).2.status = none ∧
    (checkGuarded (some msg) cfg method key now store).2.logged = true :=
  ⟨rfl, rfl, rfl⟩

/-- C7: for every non-exempt request the reported `X-RateLimit-Remaining`
equals `max(0, maxRequests - count)` where `count` is the sliding-window
count of the bucket of the key, and the reported value is never negative. -/
theorem c7_remaining_header (cfg : Config) (method key : String) (now : Int)
    (store : Store) (hmethod : method ∉ cfg.skipMethods) :
    (check cfg method key now store).2.remainingHeader =
        some (max 0 ((cfg.maxRequests : Int) -
          (countInWindow cfg now store key : Int))) ∧
    0 ≤ ((check cfg method key now store).2.remainingHeader).getD 0 := by
  rw [check_nonexempt cfg method key now store hmethod]
  split <;> simp

/-- Witness for C7 at a concrete input. -/
theorem c7_witness :
    ("GET" ∉ cfgA.skipMethods) ∧
    ((check cfgA "GET" "k" 200 Store.empty).2.remainingHeader =
        some (max 0 ((cfgA.maxRequests : Int) -
          (countInWindow cfgA 200 Store.empty "k" : Int))) ∧
      0 ≤ ((check cfgA "GET" "k" 200 Store.empty).2.remainingHeader).getD 0) :=
  ⟨by decide, c7_remaining_header cfgA "GET" "k" 200 Store.empty (by decide)⟩

/-- C10: remaining is computed from the pruned bucket before the current
timestamp is appended: on the first-ever request for a key the response
reports Remaining = maxRequests (not maxRequests - 1), while the stored
bucket afterwards already holds the new timestamp. -/
theorem c10_remaining_before_append (cfg : Config) (method key : String)
    (now : Int) (store : Store) (hmethod : method ∉ cfg.skipMethods)
    (hfresh : store key = none) (hmax : 1 ≤ cfg.maxRequests) :
    (check cfg method key now store).2.remainingHeader =
        some (cfg.maxRequests : Int) ∧
    (check cfg method key now store).1 key =
        some { requests := [now], firstRequest := now } := by
  have hcount : countInWindow cfg now store key = 0 := by
    simp [countInWindow, prunedRequests, entryOf, hfresh]
  have hpr : prunedRequests cfg now store key = [] := by
    simp [prunedRequests, entryOf, hfresh]
  rw [check_nonexempt cfg method key now store hmethod,
    if_neg (by rw [hcount]; omega)]
  constructor
  · simp [hcount, max_eq_right (Int.natCast_nonneg cfg.maxRequests)]
  · simp [Store.setKey, hpr, entryOf, hfresh]

/-- Witness for C10 at a concrete input. -/
theorem c10_witness :
    ("GET" ∉ cfgA.skipMethods) ∧ Store.empty "k" = none ∧
    1 ≤ cfgA.maxRequests ∧
    ((check cfgA "GET" "k" 200 Store.empty).2.remainingHeader =
        some (cfgA.maxRequests : Int) ∧
      (check cfgA "GET" "k" 200 Store.empty).1 "k" =
        some { requests := [200], firstRequest := 200 }) :=
  ⟨by decide, rfl, by decide,
   c10_remaining_before_append cfgA "GET" "k" 200 Store.empty
     (by decide) rfl (by decide)⟩

/-- C8: the cleanup sweep interval is the fixed 5 minutes, and one sweep
keeps exactly the buckets whose first-ever-request timestamp is not older
than the 1-hour staleness threshold: every stale bucket is deleted and no
other bucket is touched. -/
theorem c8_cleanup_sweep (now : Int) (s : Store) (k : String) (e : Entry) :
    cleanupIntervalMs = 5 * 60 * 1000 ∧
    (cleanup now s k = some e ↔
      (s k = some e ∧ ¬ e.firstRequest < now - (staleAfterMs : Int))) := by
  refine ⟨rfl, ?_⟩
  simp only [cleanup]
  cases hs : s k with
  | none => simp
  | some e2 =>
    dsimp only
    split_ifs with h
    · simp only [false_iff, Option.some.injEq]
      rintro ⟨rfl, hn⟩
      exact hn h
    · simp only [Option.some.injEq]
      constructor
      · rintro rfl; exact ⟨rfl, h⟩
      · rintro ⟨rfl, _⟩; rfl

/-- C2: a non-exempt check decides on exactly the sliding-window count —
the stored timestamps in the trailing window `(now - windowMs, now]` — and
once the window has elapsed past every stored request the next request for
that key is accepted even though `maxRequests` had been exhausted. -/
theorem c2_sliding_window (cfg : Config) (method key : String) (now : Int)
    (store : Store) (prev : List Int) (fr : Int)
    (hmethod : method ∉ cfg.skipMethods)
    (hstore : store key = some { requests := prev, firstRequest := fr })
    (hmax : 1 ≤ cfg.maxRequests)
    (_hexhausted : cfg.maxRequests ≤ prev.length)
    (helapsed : ∀ x ∈ prev, x + (cfg.windowMs : Int) ≤ now) :
    ((check cfg method key now store).2.status = none ↔
      (prev.filter (fun t => now - (cfg.windowMs : Int) < t)).length <
        cfg.maxRequests) ∧
    (check cfg method key now store).2.status = none ∧
    (check cfg method key now store).2.calledNext = true := by
  have hcnt : countInWindow cfg now store key =
      (prev.filter (fun t => now - (cfg.windowMs : Int) < t)).length := by
    simp [countInWindow, prunedRequests, entryOf, hstore]
  have hnil : prev.filter (fun t => now - (cfg.windowMs : Int) < t) = [] := by
    rw [List.filter_eq_nil_iff]
    intro a ha
    have := helapsed a ha
    simp only [decide_eq_true_eq, not_lt]
    omega
  have h0 : countInWindow cfg now store key = 0 := by rw [hcnt, hnil]; rfl
  rw [check_nonexempt cfg method key now store hmethod,
    if_neg (by rw [h0]; omega)]
  refine ⟨?_, rfl, rfl⟩
  simp only [hnil, List.length_nil, true_iff]
  omega

/-- Witness for C2 at a concrete input. -/
theorem c2_witness :
    ("GET" ∉ cfgB.skipMethods) ∧
    storeB "k" = some { requests := [1000], firstRequest := 1000 } ∧
    1 ≤ cfgB.maxRequests ∧
    cfgB.maxRequests ≤ ([(1000 : Int)]).length ∧
    (∀ x ∈ ([(1000 : Int)]), x + (cfgB.windowMs : Int) ≤ 3001) ∧
    (((check cfgB "GET" "k" 3001 storeB).2.status = none ↔
        (([(1000 : Int)]).filter
          (fun t => 3001 - (cfgB.windowMs : Int) < t)).length <
          cfgB.maxRequests) ∧
      (check cfgB "GET" "k" 3001 storeB).2.status = none ∧
      (check cfgB "GET" "k" 3001 storeB).2.calledNext = true) :=
  ⟨by decide, by decide, by decide, by decide, by decide,
   c2_sliding_window cfgB "GET" "k" 3001 storeB [1000] 1000
     (by decide) (by decide) (by decide) (by decide) (by decide)⟩

/-- Counterexample to C3: at `maxRequests = 1`, `windowMs = 2000`, bucket
`[1000]`, `now = 2000`, the request is rejected and the code reports
`retryAfter = 2` seconds (always the full window), while the value the
claim prescribes — from the oldest surviving timestamp plus window length
minus now — is 1 second. -/
theorem c3_counterexample :
    (check cfgB "GET" "k" 2000 storeB).2.status = some 429 ∧
    (check cfgB "GET" "k" 2000 storeB).2.bodyRetryAfter = some 2 ∧
    (check cfgB "GET" "k" 2000 storeB).2.retryAfterHeader = some 2 ∧
    specRetryAfterSeconds cfgB 2000 (prunedRequests cfgB 2000 storeB "k") = 1 ∧
    (check cfgB "GET" "k" 2000 storeB).2.bodyRetryAfter ≠
      some (Int.toNat (specRetryAfterSeconds cfgB 2000
        (prunedRequests cfgB 2000 storeB "k"))) := by
  decide

/-- C3 amended: for every rejected non-exempt request the reported
retry-after (the `Retry-After` header and the `retryAfter` body field) is
the full window length in seconds, `ceil(windowMs / 1000)`, regardless of
the surviving timestamps. -/
theorem c3_amended_retry_after (cfg : Config) (method key : String)
    (now : Int) (store : Store) (hmethod : method ∉ cfg.skipMethods)
    (hrej : (check cfg method key now store).2.status = some 429) :
    (check cfg method key now store).2.retryAfterHeader =
        some ((cfg.windowMs + 999) / 1000) ∧
    (check cfg method key now store).2.bodyRetryAfter =
        some ((cfg.windowMs + 999) / 1000) := by
  by_cases hc : cfg.maxRequests ≤ countInWindow cfg now store key
  · rw [check_nonexempt cfg method key now store hmethod, if_pos hc]
    exact ⟨rfl, rfl⟩
  · rw [check_nonexempt cfg method key now store hmethod, if_neg hc] at hrej
    simp at hrej

/-- Witness for the amended C3 at a concrete input. -/
theorem c3_amended_witness :
    ("GET" ∉ cfgB.skipMethods) ∧
    (check cfgB "GET" "k" 2000 storeB).2.status = some 429 ∧
    ((check cfgB "GET" "k" 2000 storeB).2.retryAfterHeader =
        some ((cfgB.windowMs + 999) / 1000) ∧
      (check cfgB "GET" "k" 2000 storeB).2.bodyRetryAfter =
        some ((cfgB.windowMs + 999) / 1000)) :=
  ⟨by decide, by decide,
   c3_amended_retry_after cfgB "GET" "k" 2000 storeB (by decide) (by decide)⟩

/-- Counterexample to C4: the first-ever (non-exempt) request for a key is
answered with `X-RateLimit-Limit` and `X-RateLimit-Remaining` but without
`X-RateLimit-Reset` — the reset header is only set when a timestamp
survives pruning — so not every non-exempt response carries all three. -/
theorem c4_counterexample :
    ("GET" ∉ cfgA.skipMethods) ∧
    (check cfgA "GET" "k" 5000 Store.empty).2.limitHeader = some 2 ∧
    (check cfgA "GET" "k" 5000 Store.empty).2.remainingHeader = some 2 ∧
    (check cfgA "GET" "k" 5000 Store.empty).2.resetHeader = none ∧
    (check cfgA "GET" "k" 5000 Store.empty).2.status = none := by
  decide

theorem resetHeaderOf_isSome (pruned : List Int) (w : Int) :
    (resetHeaderOf pruned w).isSome = true ↔ pruned.head?.getD 0 ≠ 0 := by
  unfold resetHeaderOf
  cases pruned.head? with
  | none => simp
  | some t => by_cases h : t = 0 <;> simp [h]

/-- C4 amended: every non-exempt request is answered with
`X-RateLimit-Limit` and `X-RateLimit-Remaining`; `X-RateLimit-Reset` is
present exactly when a nonzero oldest timestamp survives pruning; and
`Retry-After` is present exactly when the request is rejected with 429. -/
theorem c4_amended_headers (cfg : Config) (method key : String) (now : Int)
    (store : Store) (hmethod : method ∉ cfg.skipMethods) :
    (check cfg method key now store).2.limitHeader = some cfg.maxRequests ∧
    ((check cfg method key now store).2.remainingHeader).isSome = true ∧
    (((check cfg method key now store).2.resetHeader).isSome = true ↔
      (prunedRequests cfg now store key).head?.getD 0 ≠ 0) ∧
    (((check cfg method key now store).2.retryAfterHeader).isSome = true ↔
      (check cfg method key now store).2.status = some 429) := by
  rw [check_nonexempt cfg method key now store hmethod]
  split <;> simp [resetHeaderOf_isSome]

/-- Witness for the amended C4 at a concrete input. -/
theorem c4_amended_witness :
    ("GET" ∉ cfgB.skipMethods) ∧
    ((check cfgB "GET" "k" 1200 storeB).2.limitHeader =
        some cfgB.maxRequests ∧
      ((check cfgB "GET" "k" 1200 storeB).2.remainingHeader).isSome = true ∧
      (((check cfgB "GET" "k" 1200 storeB).2.resetHeader).isSome = true ↔
        (prunedRequests cfgB 1200 storeB "k").head?.getD 0 ≠ 0) ∧
      (((check cfgB "GET" "k" 1200 storeB).2.retryAfterHeader).isSome = true ↔
        (check cfgB "GET" "k" 1200 storeB).2.status = some 429)) :=
  ⟨by decide, c4_amended_headers cfgB "GET" "k" 1200 storeB (by decide)⟩

theorem requestStep_accepts (cfg : Config) (method key : String)
    (now : Int) (sc : Nat) (store : Store) (pre : List Int) (fr : Int)
    (hmethod : method ∉ cfg.skipMethods)
    (hnoerase : cfg.skipSuccessfulRequests = false ∨ 400 ≤ sc)
    (hentry : entryOf store key now = { requests := pre, firstRequest := fr })
    (hlt : pre.length < cfg.maxRequests)
    (hall : ∀ x ∈ pre, now - (cfg.windowMs : Int) < x) :
    (requestStep cfg method key now sc store).1 key =
        some { requests := pre ++ [now], firstRequest := fr } ∧
    (requestStep cfg method key now sc store).2.status = none ∧
    (requestStep cfg method key now sc store).2.calledNext = true := by
  have hpr : prunedRequests cfg now store key = pre := by
    rw [prunedRequests, hentry]
    rw [List.filter_eq_self]
    intro a ha
    simpa using hall a ha
  have hcnt : countInWindow cfg now store key = pre.length := by
    rw [countInWindow, hpr]
  have hneg : ¬ cfg.maxRequests ≤ countInWindow cfg now store key := by
    rw [hcnt]; omega
  have hcheck := check_nonexempt cfg method key now store hmethod
  rw [if_neg hneg] at hcheck
  have hguard : ¬ ((check cfg method key now store).2.registeredFinish = true
      ∧ sc < 400) := by
    rw [hcheck]
    rcases hnoerase with h | h
    · simp [h]
    · rintro ⟨-, hx⟩; omega
  simp only [requestStep, if_neg hguard]
  rw [hcheck]
  refine ⟨?_, rfl, rfl⟩
  simp [Store.setKey_self, hpr, hentry]

theorem runSeq_accepts (cfg : Config) (method key : String) (sc : Nat)
    (tl : Int) (hmethod : method ∉ cfg.skipMethods)
    (hnoerase : cfg.skipSuccessfulRequests = false ∨ 400 ≤ sc) :
    ∀ (ts : List Int) (store : Store) (pre : List Int) (fr : Int),
      store key = some { requests := pre, firstRequest := fr } →
      pre.length + ts.length ≤ cfg.maxRequests →
      (∀ x ∈ pre, tl - (cfg.windowMs : Int) < x) →
      (∀ x ∈ ts, tl - (cfg.windowMs : Int) < x ∧ x ≤ tl) →
      (runSeq cfg method key sc store ts).1 key =
          some { requests := pre ++ ts, firstRequest := fr } ∧
      ∀ r ∈ (runSeq cfg method key sc store ts).2,
        r.status = none ∧ r.calledNext = true := by
  intro ts
  induction ts with
  | nil =>
    intro store pre fr hstore _ _ _
    exact ⟨by simpa using hstore, by simp [runSeq]⟩
  | cons t rest ih =>
    intro store pre fr hstore hlen hpre hts
    have hts_head := hts t (List.mem_cons_self t rest)
    rw [List.length_cons] at hlen
    have hstep := requestStep_accepts cfg method key t sc store pre fr
      hmethod hnoerase (by simp [entryOf, hstore]) (by omega)
      (fun x hx => lt_of_le_of_lt
        (sub_le_sub_right hts_head.2 (cfg.windowMs : Int)) (hpre x hx))
    have ihres := ih (requestStep cfg method key t sc store).1 (pre ++ [t]) fr
      hstep.1 (by rw [List.length_append, List.length_singleton]; omega)
      (by
        intro x hx
        rcases List.mem_append.mp hx with hx2 | hx2
        · exact hpre x hx2
        · rw [List.mem_singleton] at hx2
          subst hx2
          exact hts_head.1)
      (fun x hx => hts x (List.mem_cons_of_mem t hx))
    constructor
    · simp only [runSeq]
      rw [ihres.1, List.append_assoc, List.singleton_append]
    · simp only [runSeq]
      intro r hr
      rcases List.mem_cons.mp hr with hr2 | hr2
      · subst hr2
        exact ⟨hstep.2.1, hstep.2.2⟩
      · exact ihres.2 r hr2

/-- A burst of exactly `maxRequests` non-exempt requests on a fresh key,
all within one trailing window of `tx` and with no retroactive removal
(either skip-successful mode is off or the responses end in error), is
fully accepted, and one more request at `tx` is rejected with 429. -/
theorem burst_exhausts (cfg : Config) (method key : String) (sc : Nat)
    (store : Store) (ts : List Int) (tx : Int)
    (hmethod : method ∉ cfg.skipMethods)
    (hnoerase : cfg.skipSuccessfulRequests = false ∨ 400 ≤ sc)
    (hfresh : store key = none)
    (hmax : 1 ≤ cfg.maxRequests)
    (hlen : ts.length = cfg.maxRequests)
    (hwin : ∀ x ∈ ts, tx - (cfg.windowMs : Int) < x ∧ x ≤ tx) :
    (∀ r ∈ (runSeq cfg method key sc store ts).2,
        r.status = none ∧ r.calledNext = true) ∧
    (check cfg method key tx (runSeq cfg method key sc store ts).1).2.status =
        some 429 := by
  cases ts with
  | nil => rw [List.length_nil] at hlen; omega
  | cons t rest =>
    have hwin_head := hwin t (List.mem_cons_self t rest)
    rw [List.length_cons] at hlen
    have hstep := requestStep_accepts cfg method key t sc store [] t
      hmethod hnoerase (by simp [entryOf, hfresh])
      (by rw [List.length_nil]; omega) (by simp)
    have hs1 : (requestStep cfg method key t sc store).1 key =
        some { requests := [t], firstRequest := t } := by
      simpa using hstep.1
    have hrun := runSeq_accepts cfg method key sc tx hmethod hnoerase rest
      (requestStep cfg method key t sc store).1 [t] t hs1
      (by rw [List.length_singleton]; omega)
      (by
        intro x hx
        rw [List.mem_singleton] at hx
        subst hx
        exact hwin_head.1)
      (fun x hx => hwin x (List.mem_cons_of_mem t hx))
    have hfinal : (runSeq cfg method key sc store (t :: rest)).1 key =
        some { requests := t :: rest, firstRequest := t } := by
      simp only [runSeq]
      rw [hrun.1, List.singleton_append]
    constructor
    · simp only [runSeq]
      intro r hr
      rcases List.mem_cons.mp hr with hr2 | hr2
      · subst hr2
        exact ⟨hstep.2.1, hstep.2.2⟩
      · exact hrun.2 r hr2
    · have hpr : prunedRequests cfg tx
          (runSeq cfg method key sc store (t :: rest)).1 key = t :: rest := by
        rw [prunedRequests, entryOf, hfinal]
        rw [Option.getD_some]
        rw [List.filter_eq_self]
        intro a ha
        simpa using (hwin a ha).1
      have hcnt : countInWindow cfg tx
          (runSeq cfg method key sc store (t :: rest)).1 key =
          cfg.maxRequests := by
        rw [countInWindow, hpr, List.length_cons]
        omega
      rw [check_nonexempt cfg method key tx _ hmethod,
        if_pos (le_of_eq hcnt.symm)]

/-- C1: for every key, positive `maxRequests` and window, a sequence of
exactly `maxRequests` non-exempt requests on a fresh key, all within one
trailing window of the time `tx`, is fully accepted, and the
`(maxRequests + 1)`-th request at `tx` in the same window is rejected with
HTTP status 429. -/
theorem c1_exact_limit (cfg : Config) (method key : String) (sc : Nat)
    (store : Store) (ts : List Int) (tx : Int)
    (hmethod : method ∉ cfg.skipMethods)
    (hskip : cfg.skipSuccessfulRequests = false)
    (hfresh : store key = none)
    (hmax : 1 ≤ cfg.maxRequests)
    (hlen : ts.length = cfg.maxRequests)
    (hwin : ∀ x ∈ ts, tx - (cfg.windowMs : Int) < x ∧ x ≤ tx) :
    (∀ r ∈ (runSeq cfg method key sc store ts).2,
        r.status = none ∧ r.calledNext = true) ∧
    (check cfg method key tx (runSeq cfg method key sc store ts).1).2.status =
        some 429 :=
  burst_exhausts cfg method key sc store ts tx hmethod (Or.inl hskip)
    hfresh hmax hlen hwin

/-- Witness for C1 at a concrete input. -/
theorem c1_witness :
    ("GET" ∉ cfgA.skipMethods) ∧
    cfgA.skipSuccessfulRequests = false ∧
    Store.empty "k" = none ∧ 1 ≤ cfgA.maxRequests ∧
    ([(0 : Int), 100]).length = cfgA.maxRequests ∧
    (∀ x ∈ ([(0 : Int), 100]),
      200 - (cfgA.windowMs : Int) < x ∧ x ≤ 200) ∧
    ((∀ r ∈ (runSeq cfgA "GET" "k" 200 Store.empty [0, 100]).2,
        r.status = none ∧ r.calledNext = true) ∧
      (check cfgA "GET" "k" 200
        (runSeq cfgA "GET" "k" 200 Store.empty [0, 100]).1).2.status =
        some 429) :=
  ⟨by decide, rfl, rfl, by decide, by decide, by decide,
   c1_exact_limit cfgA "GET" "k" 200 Store.empty [0, 100] 200
     (by decide) rfl rfl (by decide) (by decide) (by decide)⟩

theorem requestStep_success_resets (cfg : Config) (method key : String)
    (now : Int) (sc : Nat) (store : Store) (fr : Int)
    (hmethod : method ∉ cfg.skipMethods)
    (hskip : cfg.skipSuccessfulRequests = true) (hsc : sc < 400)
    (hmax : 1 ≤ cfg.maxRequests)
    (hentry : entryOf store key now = { requests := [], firstRequest := fr }) :
    (requestStep cfg method key now sc store).1 key =
        some { requests := [], firstRequest := fr } ∧
    (requestStep cfg method key now sc store).2.status = none ∧
    (requestStep cfg method key now sc store).2.calledNext = true := by
  have hpr : prunedRequests cfg now store key = [] := by
    rw [prunedRequests, hentry]
    rfl
  have hneg : ¬ cfg.maxRequests ≤ countInWindow cfg now store key := by
    rw [countInWindow, hpr]
    simp only [List.length_nil]
    omega
  have hcheck := check_nonexempt cfg method key now store hmethod
  rw [if_neg hneg] at hcheck
  have hguard : ((check cfg method key now store).2.registeredFinish = true
      ∧ sc < 400) := by
    rw [hcheck]
    exact ⟨hskip, hsc⟩
  simp only [requestStep, if_pos hguard]
  rw [hcheck]
  refine ⟨?_, rfl, rfl⟩
  dsimp only
  rw [finishErase, Store.setKey_self]
  simp [Store.setKey_self, hpr, hentry]

theorem runSeq_success_resets (cfg : Config) (method key : String) (sc : Nat)
    (hmethod : method ∉ cfg.skipMethods)
    (hskip : cfg.skipSuccessfulRequests = true) (hsc : sc < 400)
    (hmax : 1 ≤ cfg.maxRequests) :
    ∀ (ts : List Int) (store : Store),
      (store key = none ∨
        ∃ fr, store key = some { requests := [], firstRequest := fr }) →
      ((runSeq cfg method key sc store ts).1 key = none ∨
        ∃ fr, (runSeq cfg method key sc store ts).1 key =
          some { requests := [], firstRequest := fr }) ∧
      ∀ r ∈ (runSeq cfg method key sc store ts).2,
        r.status = none ∧ r.calledNext = true := by
  intro ts
  induction ts with
  | nil =>
    intro store hstore
    exact ⟨hstore, by simp [runSeq]⟩
  | cons t rest ih =>
    intro store hstore
    have hentry : ∃ fr, entryOf store key t =
        { requests := [], firstRequest := fr } := by
      rcases hstore with h | ⟨fr, h⟩
      · exact ⟨t, by simp [entryOf, h]⟩
      · exact ⟨fr, by simp [entryOf, h]⟩
    rcases hentry with ⟨fr, hentry⟩
    have hstep := requestStep_success_resets cfg method key t sc store fr
      hmethod hskip hsc hmax hentry
    have ihres := ih (requestStep cfg method key t sc store).1
      (Or.inr ⟨fr, hstep.1⟩)
    constructor
    · simpa only [runSeq] using ihres.1
    · simp only [runSeq]
      intro r hr
      rcases List.mem_cons.mp hr with hr2 | hr2
      · subst hr2
        exact ⟨hstep.2.1, hstep.2.2⟩
      · exact ihres.2 r hr2

/-- C6: with skip-successful-requests mode on, a finished non-error
response has its just-added timestamp removed again; a burst of
`maxRequests` successful (status < 400) requests on a fresh key leaves the
limit unexhausted — a further request in the same window is accepted —
while the same burst finishing with error statuses (status ≥ 400) exhausts
it and the further request is rejected with 429. -/
theorem c6_count_only_failures (cfg : Config) (method key : String)
    (scOk scErr : Nat) (store : Store) (ts : List Int) (tx : Int)
    (hmethod : method ∉ cfg.skipMethods)
    (hskip : cfg.skipSuccessfulRequests = true)
    (hscOk : scOk < 400) (hscErr : 400 ≤ scErr)
    (hfresh : store key = none)
    (hmax : 1 ≤ cfg.maxRequests)
    (hlen : ts.length = cfg.maxRequests)
    (hwin : ∀ x ∈ ts, tx - (cfg.windowMs : Int) < x ∧ x ≤ tx) :
    ((∀ r ∈ (runSeq cfg method key scOk store ts).2, r.status = none) ∧
      (check cfg method key tx
        (runSeq cfg method key scOk store ts).1).2.status = none ∧
      (check cfg method key tx
        (runSeq cfg method key scOk store ts).1).2.calledNext = true) ∧
    ((∀ r ∈ (runSeq cfg method key scErr store ts).2, r.status = none) ∧
      (check cfg method key tx
        (runSeq cfg method key scErr store ts).1).2.status = some 429) := by
  constructor
  · have hrun := runSeq_success_resets cfg method key scOk hmethod hskip
      hscOk hmax ts store (Or.inl hfresh)
    have hcnt : countInWindow cfg tx
        (runSeq cfg method key scOk store ts).1 key = 0 := by
      rcases hrun.1 with h | ⟨fr, h⟩ <;>
        simp [countInWindow, prunedRequests, entryOf, h]
    have hcheck := check_nonexempt cfg method key tx
      (runSeq cfg method key scOk store ts).1 hmethod
    rw [if_neg (by rw [hcnt]; omega)] at hcheck
    refine ⟨fun r hr => (hrun.2 r hr).1, ?_, ?_⟩ <;> rw [hcheck]
  · have hburst := burst_exhausts cfg method key scErr store ts tx hmethod
      (Or.inr hscErr) hfresh hmax hlen hwin
    exact ⟨fun r hr => (hburst.1 r hr).1, hburst.2⟩

/-- Witness for C6 at a concrete input. -/
theorem c6_witness :
    ("GET" ∉ cfgC.skipMethods) ∧
    cfgC.skipSuccessfulRequests = true ∧
    (200 : Nat) < 400 ∧ (400 : Nat) ≤ 500 ∧
    Store.empty "k" = none ∧ 1 ≤ cfgC.maxRequests ∧
    ([(0 : Int), 100]).length = cfgC.maxRequests ∧
    (∀ x ∈ ([(0 : Int), 100]),
      200 - (cfgC.windowMs : Int) < x ∧ x ≤ 200) ∧
    (((∀ r ∈ (runSeq cfgC "GET" "k" 200 Store.empty [0, 100]).2,
        r.status = none) ∧
      (check cfgC "GET" "k" 200
        (runSeq cfgC "GET" "k" 200 Store.empty [0, 100]).1).2.status = none ∧
      (check cfgC "GET" "k" 200
        (runSeq cfgC "GET" "k" 200 Store.empty [0, 100]).1).2.calledNext =
        true) ∧
     ((∀ r ∈ (runSeq cfgC "GET" "k" 500 Store.empty [0, 100]).2,
        r.status = none) ∧
      (check cfgC "GET" "k" 200
        (runSeq cfgC "GET" "k" 500 Store.empty [0, 100]).1).2.status =
        some 429)) :=
  ⟨by decide, rfl, by decide, by decide, rfl, by decide, by decide, by decide,
   c6_count_only_failures cfgC "GET" "k" 200 500 Store.empty [0, 100] 200
     (by decide) rfl (by decide) (by decide) rfl (by decide) (by decide)
     (by decide)⟩

end RateLimiter
